import Mathlib

/-
  Verification development for the document-retrieval repository.

  The first part embeds the frontend client (frontend/src/lib/api.ts, the
  search page frontend/src/app/search/page.tsx and the login page) as pure
  Lean functions: JSON request bodies become association lists of fields,
  the browser/client state (localStorage token, location) is threaded
  explicitly, and event handlers become functions from state to state.

  The second part models the backend Hybrid Retrieval Engine.  The backend
  source is not part of the repository snapshot, so those definitions are
  modelled from the specification (sections 3, 4.3 to 4.6 of the spec):
  the two index states are association lists of chunks, the vector and
  lexical searches are owner- and metadata-filtered sorted retrievals with
  abstract scoring functions, and Reciprocal Rank Fusion is implemented
  exactly as specified over 1-based ranks with exact rational scores.
-/

namespace DocRetrieval

/-- A JSON value, as far as the request and response bodies of this
frontend need: strings, natural numbers, rationals and null. -/
inductive JsonVal where
  | str (s : String)
  | nat (n : Nat)
  | rat (q : ℚ)
  | null
deriving DecidableEq, Repr

/-! ## Frontend client (frontend/src/lib/api.ts) -/

/-- The optional metadata filter fields of the search request, as in the
TypeScript type of `search`: a `none` field corresponds to a property that
is absent or has the value undefined, which JSON.stringify drops. -/
structure SearchFilters where
  source : Option String
  category : Option String
  client : Option String
deriving DecidableEq, Repr

/-- Serialization of one optional filter field: JSON.stringify omits a
property whose value is undefined, so a `none` field contributes no key at
all to the body. -/
def optField (k : String) : Option String → List (String × JsonVal)
  | none => []
  | some v => [(k, JsonVal.str v)]

/-- The JSON body built by `search` in api.ts:
`JSON.stringify(\x7b query, top_k, ...filters \x7d)` with the TypeScript
default parameter `top_k = 10`; a caller that does not supply `top_k`
corresponds to the argument `none`. -/
def searchRequestBody (query : String) (top_k : Option Nat)
    (filters : SearchFilters) : List (String × JsonVal) :=
  [("query", JsonVal.str query), ("top_k", JsonVal.nat (top_k.getD 10))]
    ++ optField "source" filters.source
    ++ optField "category" filters.category
    ++ optField "client" filters.client

/-- The `x || undefined` coercion used by `handleSearch` in
frontend/src/app/search/page.tsx: the empty string is falsy, so an empty
input box becomes undefined and the field is dropped from the body. -/
def orUndefined (s : String) : Option String :=
  if s = "" then none else some s

/-- The filter object built by `handleSearch` on the search page from the
three input-box states. -/
def handleSearchFilters (source category client : String) : SearchFilters :=
  ⟨orUndefined source, orUndefined category, orUndefined client⟩

/-- The `SearchResult` interface of api.ts, field for field.  The chunk
identifier is declared under the name `qdrant_id` and the fused score
under the name `score`. -/
structure SearchResult where
  qdrant_id : String
  score : ℚ
  content : String
  document_id : Nat
  filename : String
  source : Option String
  category : Option String
  client : Option String
  chunk_index : Nat
deriving DecidableEq, Repr

/-- An optional string field serializes to null when absent, matching the
`string | null` fields of the interface. -/
def strOrNull : Option String → JsonVal
  | none => JsonVal.null
  | some s => JsonVal.str s

/-- The JSON object shape of one search result, with the field names
exactly as declared by the `SearchResult` interface in api.ts. -/
def SearchResult.toFields (r : SearchResult) : List (String × JsonVal) :=
  [("qdrant_id", JsonVal.str r.qdrant_id),
   ("score", JsonVal.rat r.score),
   ("content", JsonVal.str r.content),
   ("document_id", JsonVal.nat r.document_id),
   ("filename", JsonVal.str r.filename),
   ("source", strOrNull r.source),
   ("category", strOrNull r.category),
   ("client", strOrNull r.client),
   ("chunk_index", JsonVal.nat r.chunk_index)]

/-- The `SearchResponse` interface of api.ts. -/
structure SearchResponse where
  query : String
  total_results : Nat
  results : List SearchResult
deriving DecidableEq, Repr

/-! ## The request helper of api.ts and its 401 handling -/

/-- The client-visible browser state touched by `request`: the
localStorage token and the window location. -/
structure ClientState where
  token : Option String
  location : String
deriving DecidableEq, Repr

/-- The part of a fetch response that `request` inspects: the HTTP status
and, for a non-ok response, the parsed error body (`none` when the body is
not JSON, otherwise the value of its `detail` property, with the empty
string standing for a falsy detail). -/
structure HttpResponse where
  status : Nat
  errDetail : Option String
  body : JsonVal
deriving DecidableEq, Repr

/-- `res.ok` of the fetch API: status in the range 200 to 299. -/
def resOk (status : Nat) : Bool :=
  200 ≤ status && status < 300

/-- Outcome of a `request` call: a returned JSON value or a thrown Error
with its message. -/
inductive RequestResult where
  | ok (v : JsonVal)
  | thrown (msg : String)
deriving DecidableEq, Repr

/-- The error message thrown for a non-ok, non-401 response:
`err.detail || "Request failed"` where a body that fails to parse is
replaced by an object with detail "Unknown error". -/
def errMessage : Option String → String
  | none => "Unknown error"
  | some d => if d = "" then "Request failed" else d

/-- The `request` helper of api.ts after the fetch resolves: on 401 it
removes the stored token, redirects to /login and throws "Unauthorized";
on any other non-ok status it throws the detail message without touching
the client state; on an ok status it returns the parsed body. -/
def request (st : ClientState) (res : HttpResponse) :
    ClientState × RequestResult :=
  if res.status = 401 then
    (⟨none, "/login"⟩, RequestResult.thrown "Unauthorized")
  else if !resOk res.status then
    (st, RequestResult.thrown (errMessage res.errDetail))
  else
    (st, RequestResult.ok res.body)

/-! ## The login page submit handler (frontend login page) -/

/-- The browser effects a page event handler can perform. -/
inductive Effect where
  | preventDefault
  | setError (msg : String)
  | setLoading (b : Bool)
  | networkRequest (url : String)
  | storageSetToken (v : String)
  | storageRemoveToken
  | navigate (url : String)
deriving DecidableEq, Repr

/-- The login page submit handler, line for line: it prevents the default
form action and clears the error message, and does nothing else. -/
def loginHandleSubmit : List Effect :=
  [Effect.preventDefault, Effect.setError ""]

/-- Whether an effect issues a network request. -/
def Effect.isNetwork : Effect → Bool
  | Effect.networkRequest _ => true
  | _ => false

/-- Whether an effect writes to localStorage. -/
def Effect.isStorageWrite : Effect → Bool
  | Effect.storageSetToken _ => true
  | Effect.storageRemoveToken => true
  | _ => false

/-- The observable state of the login page and its browser context. -/
structure LoginState where
  email : String
  password : String
  error : String
  loading : Bool
  token : Option String
  location : String
  requestsSent : Nat
  defaultPrevented : Bool
deriving DecidableEq, Repr

/-- Interpretation of one effect on the login page state. -/
def applyEffect (s : LoginState) : Effect → LoginState
  | Effect.preventDefault => { s with defaultPrevented := true }
  | Effect.setError m => { s with error := m }
  | Effect.setLoading b => { s with loading := b }
  | Effect.networkRequest _ => { s with requestsSent := s.requestsSent + 1 }
  | Effect.storageSetToken v => { s with token := some v }
  | Effect.storageRemoveToken => { s with token := none }
  | Effect.navigate u => { s with location := u }

/-- Interpretation of a whole handler. -/
def applyEffects (es : List Effect) (s : LoginState) : LoginState :=
  es.foldl applyEffect s

/-! ## Backend core: data model

The backend source is not part of the repository snapshot; everything in
this section is modelled from the specification. -/

/-- Modelled from the spec: the Document record of section 3,
`id, owner_user_id, filename, file_type, source?, category?, client?,
upload_time`. -/
structure Document where
  id : Nat
  owner_user_id : Nat
  filename : String
  file_type : String
  source : Option String
  category : Option String
  client : Option String
  upload_time : Nat
deriving DecidableEq, Repr

/-- Modelled from the spec: the Chunk record of section 3, with the
denormalized owner and metadata so that the Fusion Engine can filter
without a join. -/
structure Chunk where
  chunk_id : Nat
  document_id : Nat
  owner_user_id : Nat
  chunk_index : Nat
  text : String
  embedding : List Int
  source : Option String
  category : Option String
  client : Option String
deriving DecidableEq, Repr

/-- Modelled from the spec: the optional exact-match metadata filter on
source, category and client. -/
structure MetadataFilter where
  source : Option String
  category : Option String
  client : Option String
deriving DecidableEq, Repr

/-- Modelled from the spec: one filter field constrains a chunk field only
when the filter field is present; absence means no constraint. -/
def fieldOk (f : Option String) (v : Option String) : Bool :=
  match f with
  | none => true
  | some s => v == some s

/-- Modelled from the spec: a chunk passes the metadata filter when each
of the three fields passes independently. -/
def filterMatches (f : MetadataFilter) (c : Chunk) : Bool :=
  fieldOk f.source c.source && fieldOk f.category c.category
    && fieldOk f.client c.client

/-- Modelled from the spec: the observable persisted state, one entry per
chunk in the Vector Store and in the Lexical Index, plus the document
registry. -/
structure Store where
  documents : List Document
  vector : List Chunk
  lexical : List Chunk
deriving DecidableEq, Repr

/-! ## Backend core: sorting -/

/-- Insert into a list sorted by the boolean relation `le`. -/
def insertSorted (le : α → α → Bool) (x : α) : List α → List α
  | [] => [x]
  | y :: ys => if le x y then x :: y :: ys else y :: insertSorted le x ys

/-- Insertion sort by the boolean relation `le`; used for the
deterministic candidate orderings of both index searches and the fusion
step. -/
def sortBy (le : α → α → Bool) : List α → List α
  | [] => []
  | x :: xs => insertSorted le x (sortBy le xs)

/-- Modelled from the spec: candidate ordering of an index search,
descending score with ties broken by lower chunk_id for determinism. -/
def byScoreDesc (score : Chunk → ℚ) (c d : Chunk) : Bool :=
  if score c = score d then c.chunk_id ≤ d.chunk_id else score d < score c

/-! ## Backend core: the two index searches -/

/-- Modelled from the spec: the generous semantic candidate limit. -/
def ksem : Nat := 50

/-- Modelled from the spec: the generous lexical candidate limit. -/
def klex : Nat := 50

/-- Modelled from the spec: Vector Store search, a nearest-neighbor query
restricted to the owner and to chunks matching the metadata filter,
highest similarity first; the similarity of the embedded query to each
chunk is abstracted as a scoring function. -/
def vectorSearch (st : Store) (owner : Nat) (score : Chunk → ℚ)
    (f : MetadataFilter) : List Chunk :=
  (sortBy (byScoreDesc score)
    (st.vector.filter
      (fun c => c.owner_user_id == owner && filterMatches f c))).take ksem

/-- Modelled from the spec: Lexical Index search, scoring chunks of the
owner that match the filter by a keyword-relevance function, top
candidates by descending score with ties broken by lower chunk_id. -/
def lexicalSearch (st : Store) (owner : Nat) (score : Chunk → ℚ)
    (f : MetadataFilter) : List Chunk :=
  (sortBy (byScoreDesc score)
    (st.lexical.filter
      (fun c => c.owner_user_id == owner && filterMatches f c))).take klex

/-! ## Backend core: Reciprocal Rank Fusion -/

/-- 1-based rank search helper: position of `cid` in the list, counting
from `r`. -/
def rankAux (cid : Nat) : List Nat → Nat → Option Nat
  | [], _ => none
  | x :: xs, r => if x = cid then some r else rankAux cid xs (r + 1)

/-- Modelled from the spec: the 1-based rank of a chunk id in a ranked
candidate list, `none` when the chunk is absent from the list. -/
def rankOf (l : List Nat) (cid : Nat) : Option Nat :=
  rankAux cid l 1

/-- Modelled from the spec: the contribution of one list to the RRF score,
`1 / (κ + r)` for a chunk at rank `r` and 0 for an absent chunk. -/
def rrfTerm (κ : ℚ) : Option Nat → ℚ
  | none => 0
  | some r => 1 / (κ + r)

/-- Modelled from the spec: the fused RRF score of a chunk id over the two
candidate lists. -/
def fusedScoreOf (κ : ℚ) (A B : List Nat) (cid : Nat) : ℚ :=
  rrfTerm κ (rankOf A cid) + rrfTerm κ (rankOf B cid)

/-- Modelled from the spec: the ephemeral RankedHit record of section 3. -/
structure RankedHit where
  chunk_id : Nat
  fused_score : ℚ
  semantic_rank : Option Nat
  lexical_rank : Option Nat
deriving DecidableEq, Repr

/-- Modelled from the spec: the better (lower) of the ranks a candidate
holds in the two lists; every candidate occurs in at least one. -/
def minRankOf (h : RankedHit) : Nat :=
  match h.semantic_rank, h.lexical_rank with
  | some a, some b => min a b
  | some a, none => a
  | none, some b => b
  | none, none => 0

/-- Modelled from the spec: the fusion ordering, descending fused score,
ties by the better minimum rank, final ties by chunk_id. -/
def hitBefore (h₁ h₂ : RankedHit) : Bool :=
  if h₁.fused_score = h₂.fused_score then
    if minRankOf h₁ = minRankOf h₂ then h₁.chunk_id ≤ h₂.chunk_id
    else minRankOf h₁ < minRankOf h₂
  else h₂.fused_score < h₁.fused_score

/-- Modelled from the spec: the RankedHit of one candidate chunk id. -/
def mkHit (κ : ℚ) (A B : List Nat) (cid : Nat) : RankedHit :=
  ⟨cid, fusedScoreOf κ A B cid, rankOf A cid, rankOf B cid⟩

/-- Modelled from the spec: Reciprocal Rank Fusion of the two ranked
candidate lists of chunk ids into one deterministically ordered list of
RankedHits. -/
def fuse (κ : ℚ) (A B : List Nat) : List RankedHit :=
  sortBy hitBefore ((A ++ B).dedup.map (mkHit κ A B))

/-- Modelled from the spec: the damping constant κ of the deployed fusion
engine. -/
def kappa : ℚ := 60

/-- Modelled from the spec: a fused search result resolved back to its
stored chunk. -/
structure FusedHit where
  chunk : Chunk
  fused_score : ℚ
deriving DecidableEq, Repr

/-- Modelled from the spec: the response shape of the core search
operation, `query`, `total_results` and the ordered results. -/
structure CoreSearchResponse where
  query : String
  total_results : Nat
  results : List FusedHit
deriving DecidableEq, Repr

/-- Modelled from the spec: the full Fusion Engine search of section 4.6.
Retrieve the semantic candidates, retrieve the lexical candidates, fuse
the two rankings by RRF, truncate to top_k and resolve each surviving
chunk id to its stored chunk. -/
def searchStore (st : Store) (owner : Nat) (query : String)
    (sem lex : Chunk → ℚ) (f : MetadataFilter) (top_k : Nat) :
    CoreSearchResponse :=
  let A := vectorSearch st owner sem f
  let B := lexicalSearch st owner lex f
  let hits := (fuse kappa (A.map Chunk.chunk_id) (B.map Chunk.chunk_id)).take top_k
  let results := hits.filterMap (fun h =>
    ((A ++ B).find? (fun c => c.chunk_id == h.chunk_id)).map
      (fun c => FusedHit.mk c h.fused_score))
  ⟨query, results.length, results⟩

/-! ## Backend core: ingestion and deletion -/

/-- Modelled from the spec: the optional metadata supplied with an
upload. -/
structure DocMeta where
  source : Option String
  category : Option String
  client : Option String
deriving DecidableEq, Repr

/-- Modelled from the spec: the ingestion error taxonomy. -/
inductive IngestError where
  | emptyDocument
  | embeddingFailure (chunk_index : Nat)
  | indexWriteFailure (chunk_index : Nat)
deriving DecidableEq, Repr

/-- Modelled from the spec: the successful ingestion result. -/
structure IngestResult where
  document_id : Nat
  filename : String
  chunks_created : Nat
deriving DecidableEq, Repr

/-- Modelled from the spec: the external collaborators of one ingestion,
the chunker, the fallible embedder and the per-chunk success of the two
index writes. -/
structure IngestDeps where
  chunker : String → List String
  embed : String → Option (List Int)
  indexWriteOk : Nat → Bool

/-- Modelled from the spec: globally unique chunk ids scoped by document
id, via the canonical pairing function. -/
def mkChunkId (docId i : Nat) : Nat :=
  Nat.pair docId i

/-- Modelled from the spec: write the chunks of one document one by one to
both indexes, starting at chunk index `i`; on the first irrecoverable
failure return the error together with the partially written state. -/
def writeChunks (deps : IngestDeps) (owner docId : Nat) (meta : DocMeta)
    (st : Store) : Nat → List String → Except (IngestError × Store) Store
  | _, [] => Except.ok st
  | i, t :: ts =>
    match deps.embed t with
    | none => Except.error (IngestError.embeddingFailure i, st)
    | some v =>
      if deps.indexWriteOk i then
        let c : Chunk :=
          ⟨mkChunkId docId i, docId, owner, i, t, v,
           meta.source, meta.category, meta.client⟩
        writeChunks deps owner docId meta
          { st with vector := st.vector ++ [c], lexical := st.lexical ++ [c] }
          (i + 1) ts
      else Except.error (IngestError.indexWriteFailure i, st)

/-- Modelled from the spec: the compensating transaction, deleting the
document record and every chunk of the document from both indexes. -/
def rollbackDocument (st : Store) (docId : Nat) : Store :=
  ⟨st.documents.filter (fun d => d.id ≠ docId),
   st.vector.filter (fun c => c.document_id ≠ docId),
   st.lexical.filter (fun c => c.document_id ≠ docId)⟩

/-- Modelled from the spec: the ingestion pipeline of section 4.5.
Reject empty text, create the document record, chunk, embed and write each
chunk to both indexes, and on any later irrecoverable failure roll back so
that neither the document nor any already written chunk stays visible. -/
def ingest (deps : IngestDeps) (st : Store) (owner : Nat)
    (filename file_type text : String) (meta : DocMeta)
    (newDocId now : Nat) : Store × Except IngestError IngestResult :=
  if text = "" then (st, Except.error IngestError.emptyDocument)
  else
    let doc : Document :=
      ⟨newDocId, owner, filename, file_type,
       meta.source, meta.category, meta.client, now⟩
    let st₁ : Store := { st with documents := st.documents ++ [doc] }
    let chunkTexts := deps.chunker text
    match writeChunks deps owner newDocId meta st₁ 0 chunkTexts with
    | Except.ok st₂ =>
      (st₂, Except.ok ⟨newDocId, filename, chunkTexts.length⟩)
    | Except.error (e, stP) =>
      (rollbackDocument stP newDocId, Except.error e)

/-- Modelled from the spec: the deletion error. -/
inductive DeleteError where
  | notFound
deriving DecidableEq, Repr

/-- Modelled from the spec: deleteDocument checks ownership (reporting a
missing or foreign document as not-found) and removes the document record,
all its chunks from the Vector Store and all its postings from the Lexical
Index before the delete is complete. -/
def deleteDocument (st : Store) (owner docId : Nat) :
    Store × Except DeleteError Unit :=
  match st.documents.find? (fun d => d.id == docId && d.owner_user_id == owner) with
  | none => (st, Except.error DeleteError.notFound)
  | some _ =>
    (⟨st.documents.filter (fun d => d.id ≠ docId),
      st.vector.filter (fun c => c.document_id ≠ docId),
      st.lexical.filter (fun c => c.document_id ≠ docId)⟩,
     Except.ok ())

/-- Whether an ingestion outcome is a failure. -/
def ingestFailed : Except IngestError IngestResult → Bool
  | Except.error _ => true
  | Except.ok _ => false

/-- Modelled from the spec: all `n` chunks of a document are visible, one
per chunk index, in both the Vector Store and the Lexical Index. -/
def chunksVisible (st : Store) (docId owner n : Nat) : Prop :=
  ∀ j < n, ∃ c, c ∈ st.vector ∧ c ∈ st.lexical ∧ c.document_id = docId ∧
    c.owner_user_id = owner ∧ c.chunk_index = j

/-! ## Concrete evaluation data -/

/-- A concrete chunk of document 7, owned by user 1. -/
def egChunk : Chunk :=
  ⟨9, 7, 1, 0, "hello", [1], none, none, none⟩

/-- A concrete document record owned by user 1. -/
def egDoc : Document :=
  ⟨7, 1, "f.txt", "txt", none, none, none, 0⟩

/-- A concrete store holding one document with one chunk in both
indexes. -/
def egStore : Store :=
  ⟨[egDoc], [egChunk], [egChunk]⟩

/-- The empty store. -/
def egEmptyStore : Store :=
  ⟨[], [], []⟩

/-- A second concrete chunk, of document 8, also owned by user 1. -/
def egChunkB : Chunk :=
  ⟨10, 8, 1, 0, "world", [2], none, none, none⟩

/-- A second concrete document record owned by user 1. -/
def egDocB : Document :=
  ⟨8, 1, "g.txt", "txt", none, none, none, 0⟩

/-- A concrete store holding two documents of user 1, one chunk each. -/
def egStore2 : Store :=
  ⟨[egDoc, egDocB], [egChunk, egChunkB], [egChunk, egChunkB]⟩

/-- The store egStore2 after document 7 is deleted. -/
def egStore2AfterDelete : Store :=
  ⟨[egDocB], [egChunkB], [egChunkB]⟩

/-- Concrete ingestion collaborators: five chunks, an embedder that fails
on the third chunk text, index writes that always succeed. -/
def egDeps : IngestDeps :=
  ⟨fun _ => ["c1", "c2", "c3", "c4", "c5"],
   fun t => if t = "c3" then none else some [0],
   fun _ => true⟩

/-! ## Helper lemmas -/

theorem mem_insertSorted (le : α → α → Bool) (x a : α) (l : List α) :
    a ∈ insertSorted le x l ↔ a = x ∨ a ∈ l := by
  induction l with
  | nil => simp [insertSorted]
  | cons y ys ih =>
    simp only [insertSorted]
    by_cases h : le x y = true
    · simp [h, List.mem_cons]
    · simp [h, List.mem_cons, ih]
      tauto

theorem mem_sortBy (le : α → α → Bool) (a : α) (l : List α) :
    a ∈ sortBy le l ↔ a ∈ l := by
  induction l with
  | nil => simp [sortBy]
  | cons x xs ih =>
    simp [sortBy, mem_insertSorted, ih, List.mem_cons]

theorem vectorSearch_mem (st : Store) (u : Nat) (score : Chunk → ℚ)
    (f : MetadataFilter) (c : Chunk) (h : c ∈ vectorSearch st u score f) :
    c ∈ st.vector ∧ c.owner_user_id = u ∧ filterMatches f c = true := by
  have h₁ := List.mem_of_mem_take h
  rw [mem_sortBy] at h₁
  have h₂ := List.mem_filter.mp h₁
  have h₃ := h₂.2
  simp only [Bool.and_eq_true, beq_iff_eq] at h₃
  exact ⟨h₂.1, h₃.1, h₃.2⟩

theorem lexicalSearch_mem (st : Store) (u : Nat) (score : Chunk → ℚ)
    (f : MetadataFilter) (c : Chunk) (h : c ∈ lexicalSearch st u score f) :
    c ∈ st.lexical ∧ c.owner_user_id = u ∧ filterMatches f c = true := by
  have h₁ := List.mem_of_mem_take h
  rw [mem_sortBy] at h₁
  have h₂ := List.mem_filter.mp h₁
  have h₃ := h₂.2
  simp only [Bool.and_eq_true, beq_iff_eq] at h₃
  exact ⟨h₂.1, h₃.1, h₃.2⟩

theorem searchStore_results_mem (st : Store) (u : Nat) (q : String)
    (sem lex : Chunk → ℚ) (f : MetadataFilter) (k : Nat) (fh : FusedHit)
    (h : fh ∈ (searchStore st u q sem lex f k).results) :
    (fh.chunk ∈ st.vector ∨ fh.chunk ∈ st.lexical) ∧
      fh.chunk.owner_user_id = u ∧ filterMatches f fh.chunk = true := by
  simp only [searchStore, List.mem_filterMap] at h
  obtain ⟨hit, _, hfind⟩ := h
  rw [Option.map_eq_some'] at hfind
  obtain ⟨c, hfind, hc⟩ := hfind
  have hmem := List.mem_of_find?_eq_some hfind
  rw [List.mem_append] at hmem
  have hcc : fh.chunk = c := by rw [← hc]
  rw [hcc]
  rcases hmem with hA | hB
  · have hv := vectorSearch_mem st u sem f c hA
    exact ⟨Or.inl hv.1, hv.2.1, hv.2.2⟩
  · have hl := lexicalSearch_mem st u lex f c hB
    exact ⟨Or.inr hl.1, hl.2.1, hl.2.2⟩

theorem writeChunks_error (deps : IngestDeps) (owner docId : Nat)
    (meta : DocMeta) (ts : List String) :
    ∀ (i : Nat) (st : Store) (e : IngestError) (stP : Store),
      writeChunks deps owner docId meta st i ts = Except.error (e, stP) →
      stP.documents = st.documents ∧
      stP.vector.filter (fun c => c.document_id ≠ docId) =
        st.vector.filter (fun c => c.document_id ≠ docId) ∧
      stP.lexical.filter (fun c => c.document_id ≠ docId) =
        st.lexical.filter (fun c => c.document_id ≠ docId) := by
  induction ts with
  | nil =>
    intro i st e stP h
    simp [writeChunks] at h
  | cons t ts ih =>
    intro i st e stP h
    simp only [writeChunks] at h
    cases hemb : deps.embed t with
    | none =>
      rw [hemb] at h
      simp only [Except.error.injEq, Prod.mk.injEq] at h
      rw [← h.2]
      exact ⟨rfl, rfl, rfl⟩
    | some v =>
      rw [hemb] at h
      by_cases hw : deps.indexWriteOk i = true
      · simp only [hw, if_true] at h
        have := ih (i + 1) _ e stP h
        simp only [List.filter_append] at this
        simpa using this
      · simp only [Bool.not_eq_true] at hw
        simp only [hw, Bool.false_eq_true, if_false, Except.error.injEq,
          Prod.mk.injEq] at h
        rw [← h.2]
        exact ⟨rfl, rfl, rfl⟩

theorem writeChunks_ok (deps : IngestDeps) (owner docId : Nat)
    (meta : DocMeta) (ts : List String) :
    ∀ (i : Nat) (st st' : Store),
      writeChunks deps owner docId meta st i ts = Except.ok st' →
      st'.documents = st.documents ∧
      (∀ c ∈ st.vector, c ∈ st'.vector) ∧
      (∀ c ∈ st.lexical, c ∈ st'.lexical) ∧
      (∀ j < ts.length, ∃ c,
        c ∈ st'.vector ∧ c ∈ st'.lexical ∧ c.document_id = docId ∧
          c.owner_user_id = owner ∧ c.chunk_index = i + j) := by
  induction ts with
  | nil =>
    intro i st st' h
    simp only [writeChunks, Except.ok.injEq] at h
    subst h
    exact ⟨rfl, fun c hc => hc, fun c hc => hc, by simp⟩
  | cons t ts ih =>
    intro i st st' h
    simp only [writeChunks] at h
    cases hemb : deps.embed t with
    | none => rw [hemb] at h; cases h
    | some v =>
      rw [hemb] at h
      by_cases hw : deps.indexWriteOk i = true
      · simp only [hw, if_true] at h
        have := ih (i + 1) _ st' h
        refine ⟨this.1, ?_, ?_, ?_⟩
        · intro c hc
          exact this.2.1 c (by simp [hc])
        · intro c hc
          exact this.2.2.1 c (by simp [hc])
        · intro j hj
          cases j with
          | zero =>
            refine ⟨⟨mkChunkId docId i, docId, owner, i, t, v,
              meta.source, meta.category, meta.client⟩, ?_, ?_, rfl, rfl, by simp⟩
            · exact this.2.1 _ (by simp)
            · exact this.2.2.1 _ (by simp)
          | succ j =>
            have hj' : j < ts.length := by
              simpa [Nat.succ_lt_succ_iff] using hj
            obtain ⟨c, hcv, hcl, hd, ho, hi⟩ := this.2.2.2 j hj'
            exact ⟨c, hcv, hcl, hd, ho, by omega⟩
      · simp only [Bool.not_eq_true] at hw
        rw [hw] at h
        simp at h

/-! ## Claim theorems -/

/-- C1, counterexample: a concrete search result element of the frontend
response carries neither a field named chunk_id nor a field named
fused_score; the chunk identifier and the fused score appear under the
names qdrant_id and score instead. -/
theorem C1_counterexample :
    "chunk_id" ∉
      (SearchResult.toFields
        ⟨"abc", 1, "text", 3, "f.txt", none, none, none, 0⟩).map Prod.fst ∧
    "fused_score" ∉
      (SearchResult.toFields
        ⟨"abc", 1, "text", 3, "f.txt", none, none, none, 0⟩).map Prod.fst ∧
    "qdrant_id" ∈
      (SearchResult.toFields
        ⟨"abc", 1, "text", 3, "f.txt", none, none, none, 0⟩).map Prod.fst ∧
    "score" ∈
      (SearchResult.toFields
        ⟨"abc", 1, "text", 3, "f.txt", none, none, none, 0⟩).map Prod.fst := by
  refine ⟨?_, ?_, ?_, ?_⟩ <;> decide

/-- C1, amended: every response element of the search operation carries
exactly the fields qdrant_id, score, content, document_id, filename,
source, category, client and chunk_index, with the chunk identifier under
qdrant_id and the fused score under score. -/
theorem C1_result_fields (r : SearchResult) :
    r.toFields.map Prod.fst =
      ["qdrant_id", "score", "content", "document_id", "filename",
       "source", "category", "client", "chunk_index"] ∧
    r.toFields.lookup "qdrant_id" = some (JsonVal.str r.qdrant_id) ∧
    r.toFields.lookup "score" = some (JsonVal.rat r.score) :=
  ⟨rfl, rfl, rfl⟩

/-- C6: each metadata filter field is optional and independently
applicable.  The first two parts are the frontend: an empty input box
makes the field undefined, so the serialized body omits the key entirely
and an empty value is never sent.  The last three parts are the modelled
index filter: an absent field imposes no constraint, since the match
outcome does not depend on the chunk value of that field. -/
theorem C6_optional_filters :
    (∀ (q : String) (tk : Option Nat) (s c cl : String),
      (searchRequestBody q tk (handleSearchFilters s c cl)).map Prod.fst =
        ["query", "top_k"]
          ++ (if s = "" then [] else ["source"])
          ++ (if c = "" then [] else ["category"])
          ++ (if cl = "" then [] else ["client"])) ∧
    (∀ (q : String) (tk : Option Nat) (s c cl : String),
      ("source", JsonVal.str "") ∉
          searchRequestBody q tk (handleSearchFilters s c cl) ∧
      ("category", JsonVal.str "") ∉
          searchRequestBody q tk (handleSearchFilters s c cl) ∧
      ("client", JsonVal.str "") ∉
          searchRequestBody q tk (handleSearchFilters s c cl)) ∧
    (∀ (fc fcl : Option String) (ch : Chunk) (v : Option String),
      filterMatches ⟨none, fc, fcl⟩ { ch with source := v } =
        filterMatches ⟨none, fc, fcl⟩ ch) ∧
    (∀ (fs fcl : Option String) (ch : Chunk) (v : Option String),
      filterMatches ⟨fs, none, fcl⟩ { ch with category := v } =
        filterMatches ⟨fs, none, fcl⟩ ch) ∧
    (∀ (fs fc : Option String) (ch : Chunk) (v : Option String),
      filterMatches ⟨fs, fc, none⟩ { ch with client := v } =
        filterMatches ⟨fs, fc, none⟩ ch) := by
  refine ⟨?_, ?_, ?_, ?_, ?_⟩
  · intro q tk s c cl
    by_cases hs : s = "" <;> by_cases hc : c = "" <;> by_cases hcl : cl = "" <;>
      simp [searchRequestBody, handleSearchFilters, orUndefined, optField,
        hs, hc, hcl]
  · intro q tk s c cl
    refine ⟨?_, ?_, ?_⟩ <;>
      (by_cases hs : s = "" <;> by_cases hc : c = "" <;> by_cases hcl : cl = "" <;>
        simp [searchRequestBody, handleSearchFilters, orUndefined, optField,
          hs, hc, hcl] <;> intro h <;> simp [h] at *)
  · intro fc fcl ch v; rfl
  · intro fs fcl ch v; rfl
  · intro fs fc ch v; rfl

/-- C6 witness: with an empty source box, a category box holding notes and
an empty client box, the serialized body holds exactly the keys query,
top_k and category. -/
theorem C6_optional_filters_witness :
    (searchRequestBody "q" (some 10)
        (handleSearchFilters "" "notes" "")).map Prod.fst =
      ["query", "top_k", "category"] :=
  (C6_optional_filters).1 "q" (some 10) "" "notes" ""

/-- C7: a call to the frontend search that does not supply top_k sends the
default value 10 as the number of results requested. -/
theorem C7_topk_default (q : String) (filters : SearchFilters) :
    (searchRequestBody q none filters).lookup "top_k" =
      some (JsonVal.nat 10) :=
  rfl

/-- C9: on an HTTP 401 response, the frontend request helper removes the
stored token, redirects to /login and throws an error with message
Unauthorized instead of returning a value. -/
theorem C9_unauthorized (st : ClientState) (res : HttpResponse)
    (h : res.status = 401) :
    request st res = (⟨none, "/login"⟩, RequestResult.thrown "Unauthorized") := by
  simp [request, h]

/-- C9 witness: a concrete 401 response with a stored token. -/
theorem C9_unauthorized_witness :
    request ⟨some "tok", "/search"⟩ ⟨401, none, JsonVal.null⟩ =
      (⟨none, "/login"⟩, RequestResult.thrown "Unauthorized") :=
  C9_unauthorized ⟨some "tok", "/search"⟩ ⟨401, none, JsonVal.null⟩ rfl

/-- C10: submitting the login form only prevents the default form action
and clears the error message; it performs no network request, writes
nothing to localStorage and leaves the token and all other client state
unchanged. -/
theorem C10_login_submit_pure (s : LoginState) :
    applyEffects loginHandleSubmit s =
      { s with error := "", defaultPrevented := true } ∧
    loginHandleSubmit.all
      (fun e => !(e.isNetwork || e.isStorageWrite)) = true :=
  ⟨rfl, rfl⟩

unseal Rat.add Rat.mul Rat.inv in
/-- C2: every hit produced by Reciprocal Rank Fusion carries the fused
score `rrfTerm κ rA + rrfTerm κ rB` of its own 1-based ranks in the two
candidate lists, where `rrfTerm κ (some r) = 1 / (κ + r)` and an absent
chunk contributes `rrfTerm κ none = 0`; on the toy example with κ = 60,
semantic ranks chunk1 first and chunk2 second and lexical ranks reversed,
both chunks receive the identical score 1/61 + 1/62 and the tie is broken
deterministically by chunk_id, chunk1 first. -/
theorem C2_rrf_fusion (κ : ℚ) (A B : List Nat) (h : RankedHit)
    (hmem : h ∈ fuse κ A B) :
    h.fused_score =
      rrfTerm κ (rankOf A h.chunk_id) + rrfTerm κ (rankOf B h.chunk_id) ∧
    fusedScoreOf 60 [1, 2] [2, 1] 1 = 1 / 61 + 1 / 62 ∧
    fusedScoreOf 60 [1, 2] [2, 1] 2 = 1 / 61 + 1 / 62 ∧
    (fuse 60 [1, 2] [2, 1]).map RankedHit.chunk_id = [1, 2] := by
  refine ⟨?_, by decide, by decide, by decide⟩
  simp only [fuse, mem_sortBy, List.mem_map] at hmem
  obtain ⟨cid, _, rfl⟩ := hmem
  rfl

unseal Rat.add Rat.mul Rat.inv in
/-- C2 witness: the theorem applied to the first fused hit of the toy
example. -/
theorem C2_rrf_fusion_witness :
    (mkHit 60 [1, 2] [2, 1] 1).fused_score =
      rrfTerm 60 (rankOf [1, 2] (mkHit 60 [1, 2] [2, 1] 1).chunk_id) +
        rrfTerm 60 (rankOf [2, 1] (mkHit 60 [1, 2] [2, 1] 1).chunk_id) ∧
    fusedScoreOf 60 [1, 2] [2, 1] 1 = 1 / 61 + 1 / 62 ∧
    fusedScoreOf 60 [1, 2] [2, 1] 2 = 1 / 61 + 1 / 62 ∧
    (fuse 60 [1, 2] [2, 1]).map RankedHit.chunk_id = [1, 2] :=
  C2_rrf_fusion 60 [1, 2] [2, 1] (mkHit 60 [1, 2] [2, 1] 1) (by decide)

/-- C3: a search issued by user `a` over any store, with any query, any
scoring and any metadata filter, never returns a chunk owned by a
different user `b`; every returned chunk is owned by the requesting
user. -/
theorem C3_isolation (st : Store) (a b : Nat) (q : String)
    (sem lex : Chunk → ℚ) (f : MetadataFilter) (k : Nat) (fh : FusedHit)
    (hab : a ≠ b)
    (h : fh ∈ (searchStore st a q sem lex f k).results) :
    fh.chunk.owner_user_id ≠ b := by
  have hm := searchStore_results_mem st a q sem lex f k fh h
  rw [hm.2.1]
  exact hab

unseal Rat.add Rat.mul Rat.inv in
/-- C3 witness: a concrete two-user scenario, the hit returned to user 1
is not owned by user 2. -/
theorem C3_isolation_witness :
    (1 : Nat) ≠ 2 ∧
    FusedHit.mk egChunk (1 / 61 + 1 / 61) ∈
      (searchStore egStore 1 "q" (fun _ => 1) (fun _ => 1)
        ⟨none, none, none⟩ 10).results ∧
    (FusedHit.mk egChunk (1 / 61 + 1 / 61)).chunk.owner_user_id ≠ 2 :=
  ⟨by decide, by decide,
   C3_isolation egStore 1 2 "q" (fun _ => 1) (fun _ => 1)
     ⟨none, none, none⟩ 10 (FusedHit.mk egChunk (1 / 61 + 1 / 61))
     (by decide) (by decide)⟩

/-- C8: a search whose semantic and lexical candidate lists are both
empty, for instance because the metadata filter eliminates every
candidate, returns the successful empty response with total_results 0 and
no results, rather than failing. -/
theorem C8_empty_results (st : Store) (u : Nat) (q : String)
    (sem lex : Chunk → ℚ) (f : MetadataFilter) (k : Nat)
    (hA : vectorSearch st u sem f = [])
    (hB : lexicalSearch st u lex f = []) :
    searchStore st u q sem lex f k = ⟨q, 0, []⟩ := by
  simp only [searchStore, hA, hB]
  have hf : fuse kappa (List.map Chunk.chunk_id []) (List.map Chunk.chunk_id []) = [] := rfl
  rw [hf, List.take_nil]
  rfl

/-- C8 witness: a filter on source legal over a store whose only chunk has
no source metadata empties both candidate lists, and the search returns
the empty response. -/
theorem C8_empty_results_witness :
    vectorSearch egStore 1 (fun _ => 1) ⟨some "legal", none, none⟩ = [] ∧
    lexicalSearch egStore 1 (fun _ => 1) ⟨some "legal", none, none⟩ = [] ∧
    searchStore egStore 1 "q" (fun _ => 1) (fun _ => 1)
        ⟨some "legal", none, none⟩ 10 = ⟨"q", 0, []⟩ :=
  ⟨rfl, rfl,
   C8_empty_results egStore 1 "q" (fun _ => 1) (fun _ => 1)
     ⟨some "legal", none, none⟩ 10 rfl rfl⟩

/-- C5: after deleteDocument succeeds on a document, no chunk of that
document remains in the Vector Store, no posting of it remains in the
Lexical Index, and no subsequent search, by any user with any query,
scoring and filter, returns a chunk of that document. -/
theorem C5_delete_complete (st : Store) (owner docId : Nat) (st' : Store)
    (u : Nat) (q : String) (sem lex : Chunk → ℚ) (f : MetadataFilter)
    (k : Nat) (fh : FusedHit)
    (hdel : deleteDocument st owner docId = (st', Except.ok ()))
    (hfh : fh ∈ (searchStore st' u q sem lex f k).results) :
    st'.vector.all (fun c => c.document_id != docId) = true ∧
    st'.lexical.all (fun c => c.document_id != docId) = true ∧
    fh.chunk.document_id ≠ docId := by
  simp only [deleteDocument] at hdel
  cases hf : st.documents.find?
      (fun d => d.id == docId && d.owner_user_id == owner) with
  | none => rw [hf] at hdel; simp at hdel
  | some d =>
    rw [hf] at hdel
    simp only [Prod.mk.injEq] at hdel
    have hst : st' =
        ⟨st.documents.filter (fun d => d.id ≠ docId),
         st.vector.filter (fun c => c.document_id ≠ docId),
         st.lexical.filter (fun c => c.document_id ≠ docId)⟩ :=
      hdel.1.symm
    subst hst
    have hv : ∀ c ∈ st.vector.filter (fun c => c.document_id ≠ docId),
        c.document_id ≠ docId := by
      intro c hc
      simpa using (List.mem_filter.mp hc).2
    have hl : ∀ c ∈ st.lexical.filter (fun c => c.document_id ≠ docId),
        c.document_id ≠ docId := by
      intro c hc
      simpa using (List.mem_filter.mp hc).2
    refine ⟨?_, ?_, ?_⟩
    · rw [List.all_eq_true]
      intro c hc
      simpa using hv c hc
    · rw [List.all_eq_true]
      intro c hc
      simpa using hl c hc
    · have hm := searchStore_results_mem _ u q sem lex f k fh hfh
      rcases hm.1 with hcv | hcl
      · exact hv _ hcv
      · exact hl _ hcl

unseal Rat.add Rat.mul Rat.inv in
/-- C5 witness: deleting document 7 from a two-document store leaves only
document 8; the search afterwards returns only the chunk of document 8,
and both indexes hold no entry of document 7. -/
theorem C5_delete_complete_witness :
    deleteDocument egStore2 1 7 = (egStore2AfterDelete, Except.ok ()) ∧
    FusedHit.mk egChunkB (1 / 61 + 1 / 61) ∈
      (searchStore egStore2AfterDelete 1 "q" (fun _ => 1) (fun _ => 1)
        ⟨none, none, none⟩ 10).results ∧
    egStore2AfterDelete.vector.all (fun c => c.document_id != 7) = true ∧
    egStore2AfterDelete.lexical.all (fun c => c.document_id != 7) = true ∧
    (FusedHit.mk egChunkB (1 / 61 + 1 / 61)).chunk.document_id ≠ 7 :=
  ⟨by rfl, by decide,
   C5_delete_complete egStore2 1 7 egStore2AfterDelete 1 "q"
     (fun _ => 1) (fun _ => 1) ⟨none, none, none⟩ 10
     (FusedHit.mk egChunkB (1 / 61 + 1 / 61)) (by rfl) (by decide)⟩

theorem ingest_eq (deps : IngestDeps) (st : Store) (owner : Nat)
    (filename file_type text : String) (meta : DocMeta)
    (newDocId now : Nat) (ht : ¬ text = "") :
    ingest deps st owner filename file_type text meta newDocId now =
      match writeChunks deps owner newDocId meta
          ⟨st.documents ++ [⟨newDocId, owner, filename, file_type,
             meta.source, meta.category, meta.client, now⟩],
           st.vector, st.lexical⟩ 0 (deps.chunker text) with
      | Except.ok st₂ =>
        (st₂, Except.ok ⟨newDocId, filename, (deps.chunker text).length⟩)
      | Except.error (e, stP) =>
        (rollbackDocument stP newDocId, Except.error e) := by
  simp [ingest, ht]

/-- C4: ingestion is atomic on the observable state.  Under freshness of
the new document id, if any step after document creation fails (embedding
or an index write on any chunk) the final state is exactly the initial
state, so neither the document record nor any already written chunk stays
visible; if ingestion succeeds, the document record and all of its chunks
are visible in both indexes and the reported chunk count is the number of
chunks produced by the chunker. -/
theorem C4_ingest_atomic (deps : IngestDeps) (st : Store) (owner : Nat)
    (filename file_type text : String) (meta : DocMeta)
    (newDocId now : Nat)
    (hfD : st.documents.all (fun d => d.id != newDocId) = true)
    (hfV : st.vector.all (fun c => c.document_id != newDocId) = true)
    (hfL : st.lexical.all (fun c => c.document_id != newDocId) = true) :
    (ingestFailed
        (ingest deps st owner filename file_type text meta newDocId now).2 =
          true →
      (ingest deps st owner filename file_type text meta newDocId now).1 =
        st) ∧
    (ingestFailed
        (ingest deps st owner filename file_type text meta newDocId now).2 =
          false →
      (⟨newDocId, owner, filename, file_type, meta.source, meta.category,
          meta.client, now⟩ : Document) ∈
        (ingest deps st owner filename file_type text meta newDocId now).1.documents ∧
      (ingest deps st owner filename file_type text meta newDocId now).2 =
        Except.ok ⟨newDocId, filename, (deps.chunker text).length⟩ ∧
      chunksVisible
        (ingest deps st owner filename file_type text meta newDocId now).1
        newDocId owner (deps.chunker text).length) := by
  by_cases ht : text = ""
  · constructor
    · intro _
      simp [ingest, ht]
    · intro hok
      simp [ingest, ht, ingestFailed] at hok
  · rw [ingest_eq deps st owner filename file_type text meta newDocId now ht]
    cases hw : writeChunks deps owner newDocId meta
        ⟨st.documents ++ [⟨newDocId, owner, filename, file_type,
           meta.source, meta.category, meta.client, now⟩],
         st.vector, st.lexical⟩ 0 (deps.chunker text) with
    | ok st₂ =>
      have hok := writeChunks_ok deps owner newDocId meta
        (deps.chunker text) 0 _ st₂ hw
      constructor
      · intro hfail
        simp [ingestFailed] at hfail
      · intro _
        refine ⟨?_, rfl, ?_⟩
        · rw [hok.1]
          simp
        · intro j hj
          obtain ⟨c, hcv, hcl, hd, ho, hi⟩ := hok.2.2.2 j hj
          exact ⟨c, hcv, hcl, hd, ho, by simpa using hi⟩
    | error ep =>
      obtain ⟨e, stP⟩ := ep
      have herr := writeChunks_error deps owner newDocId meta
        (deps.chunker text) 0 _ e stP hw
      constructor
      · intro _
        have hD' : stP.documents.filter (fun d => d.id ≠ newDocId) =
            st.documents := by
          rw [herr.1]
          simp only [List.filter_append]
          have h1 : st.documents.filter (fun d => d.id ≠ newDocId) =
              st.documents := by
            rw [List.filter_eq_self]
            intro d hd
            have := List.all_eq_true.mp hfD d hd
            simpa using this
          have h2 : List.filter (fun d => d.id ≠ newDocId)
              [(⟨newDocId, owner, filename, file_type, meta.source,
                 meta.category, meta.client, now⟩ : Document)] = [] := by
            simp
          rw [h1, h2, List.append_nil]
        have hV' : stP.vector.filter (fun c => c.document_id ≠ newDocId) =
            st.vector := by
          rw [herr.2.1]
          rw [List.filter_eq_self]
          intro c hc
          have := List.all_eq_true.mp hfV c hc
          simpa using this
        have hL' : stP.lexical.filter (fun c => c.document_id ≠ newDocId) =
            st.lexical := by
          rw [herr.2.2]
          rw [List.filter_eq_self]
          intro c hc
          have := List.all_eq_true.mp hfL c hc
          simpa using this
        show rollbackDocument stP newDocId = st
        rw [rollbackDocument, hD', hV', hL']
      · intro hok
        simp [ingestFailed] at hok

/-- C4 witness: the embedder fails on chunk 3 of 5 over the empty store;
the ingestion reports the embedding failure and the final state is again
the empty store, so neither the document nor chunks 1 and 2 are
visible. -/
theorem C4_ingest_atomic_witness :
    (ingest egDeps egEmptyStore 1 "f.txt" "txt" "hello"
        ⟨none, none, none⟩ 7 0).2 =
      Except.error (IngestError.embeddingFailure 2) ∧
    (ingest egDeps egEmptyStore 1 "f.txt" "txt" "hello"
        ⟨none, none, none⟩ 7 0).1 = egEmptyStore :=
  ⟨rfl,
   (C4_ingest_atomic egDeps egEmptyStore 1 "f.txt" "txt" "hello"
       ⟨none, none, none⟩ 7 0 rfl rfl rfl).1 rfl⟩

end DocRetrieval
